import Mathlib

/-!
Verification development for the text-image-coherence dataset generator.

The definitions below are a shallow embedding of the two core source files:

* `slide_generator.py` — word wrapping (`wrap_text_by_words`), title layout
  with the two-line cap and ellipsis truncation, table-cell truncation
  (`truncate_text`), logo collision testing (`logo_overlaps_content`) and the
  render pipeline (`generate_image`).
* `datasetGenaratorPStyle.py` — the balanced pair sampler
  (`create_balanced_dataset`).
* `slide_generator.py` — the complex-image dataset loop
  (`create_complex_images`).

Randomness is modelled by an explicit tape of drawn values (one record per
loop iteration), fonts are modelled by their metric: a per-character pixel
width function `Char → Nat` (measured text width is the sum over the
characters of the string), and external effects (file existence, image and
font load success) are explicit inputs.  Pixel widths handed to the text
helpers are natural numbers; canvas coordinates are integers, as in the
source where they may go negative.
-/

namespace SlideGen

/-- Measured pixel width of a character list under font metric `cw`. -/
def listWidth (cw : Char → Nat) (l : List Char) : Nat :=
  (l.map cw).sum

/-- Measured pixel width of a string under font metric `cw`.  Embeds
`draw.textbbox((0,0), s, font)[2] - bbox[0]`. -/
def textWidth (cw : Char → Nat) (s : String) : Nat :=
  listWidth cw s.data

/-- `' '.join(ws)` from the source. -/
def joinSpace : List String → String
  | [] => ""
  | [w] => w
  | w :: ws => w ++ " " ++ joinSpace ws

/-- Helper for `splitWords`: accumulates the current word (reversed). -/
def splitWordsAux : List Char → List Char → List String
  | [], [] => []
  | [], cur => [String.mk cur.reverse]
  | c :: cs, cur =>
    if c = ' ' then
      match cur with
      | [] => splitWordsAux cs []
      | _ => String.mk cur.reverse :: splitWordsAux cs []
    else splitWordsAux cs (c :: cur)

/-- `text.split()` from the source: split on spaces, dropping empty pieces. -/
def splitWords (s : String) : List String :=
  splitWordsAux s.data []

/-- One step of the greedy wrap loop of `wrap_text_by_words` (lines 19-29 of
`slide_generator.py`).  The state is `(lines, current_line)`; lines are kept
as word lists and joined at the end. -/
def wrapStep (cw : Char → Nat) (maxWidth : Nat)
    (st : List (List String) × List String) (word : String) :
    List (List String) × List String :=
  let test := joinSpace (st.2 ++ [word])
  if textWidth cw test ≤ maxWidth then
    (st.1, st.2 ++ [word])
  else
    match st.2 with
    | [] => (st.1, [word])
    | _ => (st.1 ++ [st.2], [word])

/-- The wrap loop run over all words of the text. -/
def wrapCore (cw : Char → Nat) (maxWidth : Nat) (words : List String) :
    List (List String) × List String :=
  words.foldl (wrapStep cw maxWidth) ([], [])

/-- Embeds `wrap_text_by_words(text, draw, font, max_width)`. -/
def wrap_text_by_words (cw : Char → Nat) (maxWidth : Nat) (text : String) :
    List String :=
  let st := wrapCore cw maxWidth (splitWords text)
  let lines := (st.1 ++ if st.2 = [] then [] else [st.2]).map joinSpace
  if lines = [] then [text] else lines

/-- The ellipsis marker `"..."` appended by both truncation loops. -/
def ellipsisChars : List Char := ['.', '.', '.']

/-- The character-by-character title truncation loop (lines 135-145 of
`slide_generator.py`).  The argument is the reversed character list of the
current candidate, so that dropping the last character is structural;
when the candidate is down to a single character the loop falls through
to its `else` clause and returns `"..."`. -/
def truncTitleAux (cw : Char → Nat) (maxWidth : Nat) : List Char → List Char
  | c :: c' :: cs =>
    let cand := (c :: c' :: cs).reverse ++ ellipsisChars
    if listWidth cw cand ≤ maxWidth then cand
    else truncTitleAux cw maxWidth (c' :: cs)
  | _ => ellipsisChars

/-- Title second-line truncation: shrink from the right until the candidate
plus `"..."` fits, or give up with a bare `"..."`. -/
def truncTitle (cw : Char → Nat) (maxWidth : Nat) (s : String) : String :=
  String.mk (truncTitleAux cw maxWidth s.data.reverse)

/-- The title lines actually drawn by `generate_image` (lines 122-157 of
`slide_generator.py`): greedy wrap, then the two-row cap with ellipsis
truncation of the combined overflow, then `title_lines[:2]`. -/
def titleLinesOf (cw : Char → Nat) (maxWidth : Nat) (title : String) :
    List String :=
  let tl := wrap_text_by_words cw maxWidth title
  let tl' :=
    if tl.length > 2 then
      let first := tl.headD ""
      let secondText := joinSpace tl.tail
      let second :=
        if textWidth cw secondText ≤ maxWidth then secondText
        else truncTitle cw maxWidth secondText
      [first, second]
    else if tl.length = 0 then [title]
    else tl
  tl'.take 2

/-- The second drawn title line (`""` when fewer than two lines are drawn). -/
def titleSecondLine (cw : Char → Nat) (maxWidth : Nat) (title : String) :
    String :=
  (titleLinesOf cw maxWidth title).getD 1 ""

/-- The `while` loop of the table-cell helper `truncate_text` (lines 225-234
of `slide_generator.py`).  The argument is the reversed character list of
`truncated`; `origLen` is `len(text_str)`.  `some r` models a `return`
from inside the loop, `none` the `break` at a single character. -/
def truncCellAux (cw : Char → Nat) (maxWidth origLen : Nat) :
    List Char → Option (List Char)
  | [] => none
  | c :: rest =>
    let truncated := (c :: rest).reverse
    let test :=
      if truncated.length < origLen then truncated ++ ellipsisChars
      else truncated
    if listWidth cw test ≤ maxWidth then some test
    else
      match rest with
      | [] => none
      | _ :: _ => truncCellAux cw maxWidth origLen rest

/-- Embeds the table-cell helper `truncate_text(text, max_width, font)`
(lines 214-242 of `slide_generator.py`). -/
def truncate_text (cw : Char → Nat) (text : String) (maxWidth : Nat) :
    String :=
  if text.data = [] then ""
  else if textWidth cw text ≤ maxWidth then text
  else
    match truncCellAux cw maxWidth text.data.length text.data.reverse with
    | some r => String.mk r
    | none =>
      match text.data with
      | [] => ""
      | c :: _ => if cw c ≤ maxWidth then String.mk [c] else ""

/-! ### Lemmas about `truncate_text` -/

theorem truncCellAux_some_width (cw : Char → Nat) (maxWidth origLen : Nat) :
    ∀ (l r : List Char), truncCellAux cw maxWidth origLen l = some r →
      listWidth cw r ≤ maxWidth
  | [], r, h => by simp [truncCellAux] at h
  | [c], r, h => by
    rw [truncCellAux] at h
    split at h
    · split at h
      · cases h; assumption
      · simp at h
    · split at h
      · cases h; assumption
      · simp at h
  | c :: c' :: cs, r, h => by
    rw [truncCellAux] at h
    split at h
    · split at h
      · cases h; assumption
      · exact truncCellAux_some_width cw maxWidth origLen (c' :: cs) r h
    · split at h
      · cases h; assumption
      · exact truncCellAux_some_width cw maxWidth origLen (c' :: cs) r h

theorem textWidth_empty (cw : Char → Nat) : textWidth cw "" = 0 := rfl

theorem textWidth_mk (cw : Char → Nat) (l : List Char) :
    textWidth cw (String.mk l) = listWidth cw l := rfl

theorem truncate_text_le (cw : Char → Nat) (text : String) (maxWidth : Nat) :
    textWidth cw (truncate_text cw text maxWidth) ≤ maxWidth := by
  unfold truncate_text
  split
  · simp [textWidth_empty]
  · split
    · assumption
    · split
      · rename_i r hr
        rw [textWidth_mk]
        exact truncCellAux_some_width cw maxWidth text.data.length _ r hr
      · split
        · simp [textWidth_empty]
        · split
          · rename_i hc
            simpa [textWidth_mk, listWidth] using hc
          · simp [textWidth_empty]

theorem string_eq_empty_of_data_eq_nil {s : String} (h : s.data = []) :
    s = "" := by
  cases s
  subst h
  rfl

theorem truncate_text_of_le (cw : Char → Nat) (s : String) (maxWidth : Nat)
    (h : textWidth cw s ≤ maxWidth) : truncate_text cw s maxWidth = s := by
  unfold truncate_text
  split
  · rename_i hnil
    exact (string_eq_empty_of_data_eq_nil hnil).symm
  · rfl

/-- C4: for every input string, font metric and pixel budget `max_width`
(the call sites pass the cell interior width `max(5, cell_width - 4)`),
the string returned by the table-cell helper `truncate_text` has measured
pixel width at most `max_width`. -/
theorem truncate_text_result_fits (cw : Char → Nat) (text : String)
    (maxWidth : Nat) :
    textWidth cw (truncate_text cw text maxWidth) ≤ maxWidth :=
  truncate_text_le cw text maxWidth

/-- C5: `truncate_text` is idempotent — re-truncating already-truncated
text at the same width yields the same string. -/
theorem truncate_text_idempotent (cw : Char → Nat) (text : String)
    (maxWidth : Nat) :
    truncate_text cw (truncate_text cw text maxWidth) maxWidth =
      truncate_text cw text maxWidth :=
  truncate_text_of_le cw _ maxWidth (truncate_text_le cw text maxWidth)


/-! ### Width and join lemmas -/

theorem listWidth_append (cw : Char → Nat) (a b : List Char) :
    listWidth cw (a ++ b) = listWidth cw a + listWidth cw b := by
  simp [listWidth]

theorem textWidth_append (cw : Char → Nat) (a b : String) :
    textWidth cw (a ++ b) = textWidth cw a + textWidth cw b := by
  simp [textWidth, listWidth, String.data_append]

theorem joinSpace_cons (w : String) (ws : List String) (h : ws ≠ []) :
    joinSpace (w :: ws) = w ++ " " ++ joinSpace ws := by
  cases ws with
  | nil => exact absurd rfl h
  | cons a tl => rfl

theorem joinSpace_append (ws zs : List String) (h1 : ws ≠ []) (h2 : zs ≠ []) :
    joinSpace (ws ++ zs) = joinSpace ws ++ " " ++ joinSpace zs := by
  induction ws with
  | nil => exact absurd rfl h1
  | cons w tl ih =>
    cases tl with
    | nil =>
      simp only [List.singleton_append]
      exact joinSpace_cons w zs h2
    | cons a tl' =>
      rw [List.cons_append, joinSpace_cons w ((a :: tl') ++ zs) (by simp),
        joinSpace_cons w (a :: tl') (by simp), ih (by simp)]
      simp [String.append_assoc]

theorem textWidth_joinSpace_le (cw : Char → Nat) (ws zs : List String)
    (h : ws ≠ []) :
    textWidth cw (joinSpace ws) ≤ textWidth cw (joinSpace (ws ++ zs)) := by
  cases zs with
  | nil => simp
  | cons z tl =>
    rw [joinSpace_append ws (z :: tl) h (by simp), textWidth_append,
      textWidth_append]
    omega

theorem joinSpace_map_flatten (L : List (List String))
    (h : ∀ l ∈ L, l ≠ []) :
    joinSpace (L.map joinSpace) = joinSpace L.flatten := by
  induction L with
  | nil => rfl
  | cons a tl ih =>
    cases tl with
    | nil => simp [joinSpace]
    | cons b tl' =>
      have ha : a ≠ [] := h a (by simp)
      have hb : (b :: tl').flatten ≠ [] := by
        have : b ≠ [] := h b (by simp)
        cases b with
        | nil => exact absurd rfl this
        | cons x xs => simp
      have hb' : b ++ tl'.flatten ≠ [] := by simpa using hb
      rw [List.map_cons,
        joinSpace_cons (joinSpace a) ((b :: tl').map joinSpace) (by simp),
        ih (fun l hl => h l (by simp [hl]))]
      simp only [List.flatten_cons]
      rw [joinSpace_append a (b ++ tl'.flatten) ha hb']

/-! ### The wrap-loop adjacency invariant -/

/-- Between any two consecutive wrapped lines, the first line plus the first
word of the second line overflows the width budget (this is exactly why the
greedy loop started a new line). -/
def adjOK (cw : Char → Nat) (maxWidth : Nat) : List (List String) → Prop
  | a :: b :: rest =>
    (b ≠ [] ∧ maxWidth < textWidth cw (joinSpace (a ++ [b.headD ""]))) ∧
      adjOK cw maxWidth (b :: rest)
  | _ => True

theorem adjOK_nil (cw : Char → Nat) (maxWidth : Nat) : adjOK cw maxWidth [] :=
  trivial

theorem adjOK_single (cw : Char → Nat) (maxWidth : Nat) (l : List String) :
    adjOK cw maxWidth [l] := trivial

theorem adjOK_cons_cons (cw : Char → Nat) (maxWidth : Nat)
    (a b : List String) (rest : List (List String)) :
    adjOK cw maxWidth (a :: b :: rest) ↔
      (b ≠ [] ∧ maxWidth < textWidth cw (joinSpace (a ++ [b.headD ""]))) ∧
        adjOK cw maxWidth (b :: rest) := by
  rw [adjOK]

theorem adjOK_extend_last (cw : Char → Nat) (maxWidth : Nat) (w : String) :
    ∀ (ls : List (List String)) (cur : List String), cur ≠ [] →
      adjOK cw maxWidth (ls ++ [cur]) →
      adjOK cw maxWidth (ls ++ [cur ++ [w]])
  | [], cur, _, _ => adjOK_single cw maxWidth _
  | [a], cur, hcur, h => by
    simp only [List.cons_append, List.nil_append] at h ⊢
    rw [adjOK_cons_cons] at h ⊢
    refine ⟨⟨by simp, ?_⟩, trivial⟩
    cases cur with
    | nil => exact absurd rfl hcur
    | cons x xs => simpa using h.1.2
  | a :: b :: tl, cur, hcur, h => by
    simp only [List.cons_append] at h ⊢
    rw [adjOK_cons_cons] at h ⊢
    exact ⟨h.1, adjOK_extend_last cw maxWidth w (b :: tl) cur hcur h.2⟩

theorem adjOK_snoc (cw : Char → Nat) (maxWidth : Nat) (w : String) :
    ∀ (ls : List (List String)) (cur : List String),
      maxWidth < textWidth cw (joinSpace (cur ++ [w])) →
      adjOK cw maxWidth (ls ++ [cur]) →
      adjOK cw maxWidth (ls ++ [cur] ++ [[w]])
  | [], cur, hover, _ => by
    simp only [List.nil_append, List.cons_append]
    rw [adjOK_cons_cons]
    exact ⟨⟨by simp, by simpa using hover⟩, trivial⟩
  | a :: tl, cur, hover, h => by
    cases tl with
    | nil =>
      simp only [List.cons_append, List.nil_append] at h ⊢
      rw [adjOK_cons_cons] at h ⊢
      refine ⟨h.1, ?_⟩
      rw [adjOK_cons_cons]
      exact ⟨⟨by simp, by simpa using hover⟩, trivial⟩
    | cons b tl' =>
      simp only [List.cons_append] at h ⊢
      rw [adjOK_cons_cons] at h ⊢
      exact ⟨h.1, by
        have := adjOK_snoc cw maxWidth w (b :: tl') cur hover h.2
        simpa using this⟩

/-- Invariant of the greedy wrap loop state `(lines, current_line)`. -/
def WrapInv (cw : Char → Nat) (maxWidth : Nat)
    (st : List (List String) × List String) : Prop :=
  (st.1 = [] ∧ st.2 = []) ∨
    (st.2 ≠ [] ∧ (∀ l ∈ st.1, l ≠ []) ∧
      adjOK cw maxWidth (st.1 ++ [st.2]))

theorem wrapStep_inv (cw : Char → Nat) (maxWidth : Nat)
    (st : List (List String) × List String) (w : String)
    (h : WrapInv cw maxWidth st) :
    WrapInv cw maxWidth (wrapStep cw maxWidth st w) := by
  obtain ⟨ls, cur⟩ := st
  unfold wrapStep
  dsimp only
  rcases h with ⟨h1, h2⟩ | ⟨hcur, hls, hadj⟩
  · subst h1; subst h2
    split
    · exact Or.inr ⟨by simp, by simp, adjOK_single cw maxWidth _⟩
    · exact Or.inr ⟨by simp, by simp, adjOK_single cw maxWidth _⟩
  · split
    · exact Or.inr ⟨by simp [hcur], hls,
        adjOK_extend_last cw maxWidth w ls cur hcur hadj⟩
    · rename_i hover
      cases cur with
      | nil => exact absurd rfl hcur
      | cons x xs =>
        refine Or.inr ⟨by simp, ?_, ?_⟩
        · intro l hl
          rcases List.mem_append.mp hl with hl | hl
          · exact hls l hl
          · simp at hl; subst hl; exact hcur
        · exact adjOK_snoc cw maxWidth w ls (x :: xs)
            (by omega) hadj

theorem wrapCore_inv (cw : Char → Nat) (maxWidth : Nat) (words : List String) :
    WrapInv cw maxWidth (wrapCore cw maxWidth words) := by
  unfold wrapCore
  have : ∀ (ws : List String) (st : List (List String) × List String),
      WrapInv cw maxWidth st →
      WrapInv cw maxWidth (ws.foldl (wrapStep cw maxWidth) st) := by
    intro ws
    induction ws with
    | nil => intro st h; exact h
    | cons w tl ih =>
      intro st h
      exact ih _ (wrapStep_inv cw maxWidth st w h)
  exact this words ([], []) (Or.inl ⟨rfl, rfl⟩)

theorem adjOK_flatten_overflow (cw : Char → Nat) (maxWidth : Nat) :
    ∀ (V : List (List String)), (∀ l ∈ V, l ≠ []) →
      adjOK cw maxWidth V → 2 < V.length →
      maxWidth < textWidth cw (joinSpace (V.tail.map joinSpace))
  | [], hne, hadj, hlen => by simp at hlen
  | [a], hne, hadj, hlen => by simp at hlen
  | [a, b], hne, hadj, hlen => by simp at hlen
  | a :: b :: c :: rest, hne, hadj, hlen => by
    obtain ⟨⟨hbne, hab⟩, hrest⟩ :=
      (adjOK_cons_cons cw maxWidth a b (c :: rest)).mp hadj
    obtain ⟨⟨hcne, hbc⟩, _⟩ :=
      (adjOK_cons_cons cw maxWidth b c rest).mp hrest
    rw [List.tail_cons,
      joinSpace_map_flatten (b :: c :: rest)
        (fun l hl => hne l (List.mem_cons_of_mem a hl))]
    cases c with
    | nil => exact absurd rfl hcne
    | cons c0 ct =>
      have hsplit : (b :: (c0 :: ct) :: rest).flatten =
          (b ++ [c0]) ++ (ct ++ rest.flatten) := by simp
      rw [hsplit]
      have hle := textWidth_joinSpace_le cw (b ++ [c0]) (ct ++ rest.flatten)
        (by simp)
      have hbc' : maxWidth < textWidth cw (joinSpace (b ++ [c0])) := by
        simpa using hbc
      omega

theorem wrap_gt2_overflow (cw : Char → Nat) (maxWidth : Nat) (text : String)
    (h : 2 < (wrap_text_by_words cw maxWidth text).length) :
    maxWidth <
      textWidth cw (joinSpace (wrap_text_by_words cw maxWidth text).tail) := by
  have hinv := wrapCore_inv cw maxWidth (splitWords text)
  simp only [wrap_text_by_words] at h ⊢
  rcases hinv with ⟨h1, h2⟩ | ⟨hcur, hls, hadj⟩
  · rw [h1, h2] at h
    simp at h
  · rw [if_neg hcur] at h ⊢
    set V : List (List String) :=
      (wrapCore cw maxWidth (splitWords text)).1 ++
        [(wrapCore cw maxWidth (splitWords text)).2] with hV
    have hmapne : V.map joinSpace ≠ [] := by
      simp [hV]
    rw [if_neg hmapne] at h ⊢
    have hlen : 2 < V.length := by
      rw [List.length_map] at h
      exact h
    have hne : ∀ l ∈ V, l ≠ [] := by
      intro l hl
      rcases List.mem_append.mp hl with hl | hl
      · exact hls l hl
      · simp at hl; subst hl; exact hcur
    have htail : (V.map joinSpace).tail = V.tail.map joinSpace := by
      cases V with
      | nil => rfl
      | cons x xs => rfl
    rw [htail]
    exact adjOK_flatten_overflow cw maxWidth V hne hadj hlen

/-! ### Title truncation lemmas -/

theorem truncTitleAux_ends (cw : Char → Nat) (maxWidth : Nat) :
    ∀ l : List Char, ∃ p : List Char,
      truncTitleAux cw maxWidth l = p ++ ellipsisChars
  | [] => ⟨[], rfl⟩
  | [c] => ⟨[], rfl⟩
  | c :: c' :: cs => by
    rw [truncTitleAux]
    split
    · exact ⟨(c :: c' :: cs).reverse, rfl⟩
    · exact truncTitleAux_ends cw maxWidth (c' :: cs)

theorem truncTitleAux_width (cw : Char → Nat) (maxWidth : Nat)
    (hell : listWidth cw ellipsisChars ≤ maxWidth) :
    ∀ l : List Char, listWidth cw (truncTitleAux cw maxWidth l) ≤ maxWidth
  | [] => hell
  | [c] => hell
  | c :: c' :: cs => by
    rw [truncTitleAux]
    split
    · assumption
    · exact truncTitleAux_width cw maxWidth hell (c' :: cs)

theorem ellipsis_eq : "..." = String.mk ellipsisChars := rfl

theorem string_mk_append (a b : List Char) :
    String.mk (a ++ b) = String.mk a ++ String.mk b := rfl

theorem truncTitle_ends (cw : Char → Nat) (maxWidth : Nat) (s : String) :
    ∃ p : String, truncTitle cw maxWidth s = p ++ "..." := by
  obtain ⟨pl, hpl⟩ := truncTitleAux_ends cw maxWidth s.data.reverse
  exact ⟨String.mk pl, by rw [truncTitle, hpl, string_mk_append, ellipsis_eq]⟩

theorem truncTitle_width (cw : Char → Nat) (maxWidth : Nat) (s : String)
    (hell : textWidth cw "..." ≤ maxWidth) :
    textWidth cw (truncTitle cw maxWidth s) ≤ maxWidth := by
  rw [truncTitle, textWidth_mk]
  exact truncTitleAux_width cw maxWidth hell s.data.reverse

theorem titleLinesOf_length_le (cw : Char → Nat) (maxWidth : Nat)
    (title : String) : (titleLinesOf cw maxWidth title).length ≤ 2 := by
  simp only [titleLinesOf]
  exact List.length_take_le 2 _

theorem titleSecondLine_eq_trunc (cw : Char → Nat) (maxWidth : Nat)
    (title : String) (h : 2 < (wrap_text_by_words cw maxWidth title).length) :
    titleSecondLine cw maxWidth title =
      truncTitle cw maxWidth
        (joinSpace (wrap_text_by_words cw maxWidth title).tail) := by
  have hov := wrap_gt2_overflow cw maxWidth title h
  simp only [titleSecondLine, titleLinesOf]
  rw [if_pos h, if_neg (by omega)]
  rfl

/-- A concrete monospace font metric: every character is one pixel wide. -/
def cwOne : Char → Nat := fun _ => 1

/-- C3 (amended): `generate_image` draws at most two title lines; whenever
greedy wrapping of the title yields more than two lines the second drawn
line ends in the ellipsis marker `"..."`, and — provided the marker itself
fits the available width — the second line's measured width does not exceed
the available title width. -/
theorem generate_image_title_lines (cw : Char → Nat) (maxWidth : Nat)
    (title : String) :
    (titleLinesOf cw maxWidth title).length ≤ 2 ∧
    (2 < (wrap_text_by_words cw maxWidth title).length →
      (∃ p : String, titleSecondLine cw maxWidth title = p ++ "...") ∧
      (textWidth cw "..." ≤ maxWidth →
        textWidth cw (titleSecondLine cw maxWidth title) ≤ maxWidth)) := by
  refine ⟨titleLinesOf_length_le cw maxWidth title, fun h => ?_⟩
  rw [titleSecondLine_eq_trunc cw maxWidth title h]
  exact ⟨truncTitle_ends cw maxWidth _,
    fun hell => truncTitle_width cw maxWidth _ hell⟩

/-- Witness for C3 at a concrete title, font and width. -/
theorem generate_image_title_lines_witness :
    (titleLinesOf cwOne 5 "aaaaaa bbbbbb cccccc").length ≤ 2 ∧
    (∃ p : String, titleSecondLine cwOne 5 "aaaaaa bbbbbb cccccc" = p ++ "...") ∧
    textWidth cwOne (titleSecondLine cwOne 5 "aaaaaa bbbbbb cccccc") ≤ 5 :=
  ⟨(generate_image_title_lines cwOne 5 "aaaaaa bbbbbb cccccc").1,
    ((generate_image_title_lines cwOne 5 "aaaaaa bbbbbb cccccc").2
      (by decide)).1,
    ((generate_image_title_lines cwOne 5 "aaaaaa bbbbbb cccccc").2
      (by decide)).2 (by decide)⟩

/-- Counterexample to C3 as stated: with a one-pixel-per-character font and
an available width of 1 pixel, the title `"aa bb cc"` wraps to three lines,
and the second drawn line (`"..."`) measures 3 pixels, exceeding the
available width. -/
theorem generate_image_title_lines_counterexample :
    2 < (wrap_text_by_words cwOne 1 "aa bb cc").length ∧
    titleSecondLine cwOne 1 "aa bb cc" = "..." ∧
    1 < textWidth cwOne (titleSecondLine cwOne 1 "aa bb cc") := by
  decide

/-! ### The argument record of `generate_image` -/

/-- The keyword arguments of one `generate_image(...)` call, mirrored field
by field from `slide_generator.py` lines 61-66.  `logo_path`, `add_image`,
`add_image_2`, `title`, `text1`, `text2`, `table_headers` and `table_data`
are `None`-able in the source and are therefore options here. -/
structure GenArgs where
  font_path : String
  img_background_color : String
  output_path : String
  text_color : String
  img_size : Int × Int
  font_size : Nat
  title_font_size : Nat
  line_spacing : Nat
  logo_size : Int × Int
  border : Bool
  border_color : String
  border_width : Nat
  logo_path : Option String
  logo_position : String
  add_image : Option String
  add_image_2 : Option String
  title : Option String
  text1 : Option String
  text2 : Option String
  bullet : Bool
  add_table : Bool
  table_headers : Option (List String)
  table_data : Option (List (List String))
  table_border : Nat
  table_border_color : String
deriving DecidableEq, Repr

end SlideGen

namespace DatasetGen

open SlideGen (GenArgs)

/-- The per-slide attribute draw of `create_balanced_dataset`
(`datasetGenaratorPStyle.py` lines 241-279): one value per attribute
dimension plus the logo-presence flag. -/
structure SlideChoice where
  font : String
  bgColor : String
  textColor : String
  borderWidth : Nat
  hasLogo : Bool
  logoPath : Option String
  logoPos : String
  bullets : Bool
  table : Bool
  tableBorder : Nat
  tableBorderColor : String
deriving DecidableEq, Repr

/-- The random tape of one iteration of the generation loop: every value the
iteration may draw (`random.random`, `random.choice`, `random.randint`) is
an explicit field.  Fields ending in `Alt` are the fresh re-samples used by
the differing branch when the corresponding 50% reuse coin is false. -/
structure IterRand where
  is_same : Bool
  font1 : String
  fontReuse : Bool
  fontAlt : String
  bgColor1 : String
  bgReuse : Bool
  bgColorAlt : String
  textColor1 : String
  tcReuse : Bool
  textColorAlt : String
  borderWidth1 : Nat
  bwReuse : Bool
  borderWidthAlt : Nat
  hasLogo1 : Bool
  hasLogoReuse : Bool
  hasLogoAlt : Bool
  logoChoice1 : String
  logoPathReuse : Bool
  logoChoiceAlt : String
  logoPos1 : String
  logoPos2 : String
  bullets1 : Bool
  bulletsReuse : Bool
  bulletsAlt : Bool
  table1 : Bool
  tableReuse : Bool
  tableAlt : Bool
  tableBorder1 : Nat
  tbReuse : Bool
  tableBorderAlt : Nat
  tableBorderColor1 : String
  tbcReuse : Bool
  tableBorderColorAlt : String
  texts : List String
  lineSpacing : Nat
  borderStatus : Bool
  addImage : Option String
  addImage2 : Option String
  fontSize1 : Nat
  titleFontSize1 : Nat
  fontSize2 : Nat
  titleFontSize2 : Nat
  tableHeaders : List String
  tableData : List (List String)
deriving DecidableEq, Repr

/-- Configuration of `create_balanced_dataset`: the call arguments and the
module-level values that are passed unchanged into every
`generate_image` call. -/
structure Cfg where
  datasetDirectory : String
  numSamples : Nat
  includeTables : Bool
  borderColor : String
  imgSize : Int × Int
  logoSize : Int × Int
deriving DecidableEq, Repr

/-- The identical branch (lines 241-254): one draw per dimension, assigned
to both slides.  The differing branch uses the same draws for slide 1. -/
def sameAttrs (r : IterRand) : SlideChoice where
  font := r.font1
  bgColor := r.bgColor1
  textColor := r.textColor1
  borderWidth := r.borderWidth1
  hasLogo := r.hasLogo1
  logoPath := if r.hasLogo1 then some r.logoChoice1 else none
  logoPos := r.logoPos1
  bullets := r.bullets1
  table := r.table1
  tableBorder := r.tableBorder1
  tableBorderColor := r.tableBorderColor1

/-- Slide 2 of the differing branch (lines 257-279): per dimension, a 50%
coin reuses slide 1's value, otherwise the fresh re-sample is used; the
logo positions are sampled independently for both slides. -/
def diffAttrs2 (r : IterRand) : SlideChoice :=
  let hasLogo2 := if r.hasLogoReuse then r.hasLogo1 else r.hasLogoAlt
  let logoPath1 : Option String :=
    if r.hasLogo1 then some r.logoChoice1 else none
  { font := if r.fontReuse then r.font1 else r.fontAlt
    bgColor := if r.bgReuse then r.bgColor1 else r.bgColorAlt
    textColor := if r.tcReuse then r.textColor1 else r.textColorAlt
    borderWidth := if r.bwReuse then r.borderWidth1 else r.borderWidthAlt
    hasLogo := hasLogo2
    logoPath :=
      if hasLogo2 then
        if logoPath1.isSome ∧ r.logoPathReuse then logoPath1
        else some r.logoChoiceAlt
      else none
    logoPos := r.logoPos2
    bullets := if r.bulletsReuse then r.bullets1 else r.bulletsAlt
    table := if r.tableReuse then r.table1 else r.tableAlt
    tableBorder := if r.tbReuse then r.tableBorder1 else r.tableBorderAlt
    tableBorderColor :=
      if r.tbcReuse then r.tableBorderColor1 else r.tableBorderColorAlt }

/-- Assembles the `generate_image(...)` keyword arguments of one slide
(lines 308-361): per-pair draws (`texts`, `line_spacing`, `border_status`,
`add_image`, `add_image_2`, table content) are shared, per-slide draws
(attributes, font sizes, output path) are not. -/
def slideArgs (cfg : Cfg) (r : IterRand) (c : SlideChoice) (outPath : String)
    (fs tfs : Nat) (th : Option (List String))
    (td : Option (List (List String))) : GenArgs where
  font_path := c.font
  img_background_color := c.bgColor
  output_path := outPath
  text_color := c.textColor
  img_size := cfg.imgSize
  font_size := fs
  title_font_size := tfs
  line_spacing := r.lineSpacing
  logo_size := cfg.logoSize
  border := r.borderStatus
  border_color := cfg.borderColor
  border_width := c.borderWidth
  logo_path := c.logoPath
  logo_position := c.logoPos
  add_image := r.addImage
  add_image_2 := r.addImage2
  title := r.texts[0]?
  text1 := r.texts[1]?
  text2 := r.texts[2]?
  bullet := c.bullets
  add_table := c.table
  table_headers := th
  table_data := td
  table_border := c.tableBorder
  table_border_color := c.tableBorderColor

/-- One emitted pair: the two image paths, the argument records of the two
`generate_image` calls, and the two labels. -/
structure PairRecord where
  img1Path : String
  img2Path : String
  slide1 : GenArgs
  slide2 : GenArgs
  styleLabel : Nat
  fontLabel : Nat
deriving DecidableEq, Repr

/-- Builds the pair emitted by one successful iteration (lines 283-371):
table content is generated once per pair when either slide wants a table
and tables are enabled, image paths use the running pair index `i`. -/
def buildPair (cfg : Cfg) (idx : Nat) (r : IterRand) (a1 a2 : SlideChoice)
    (label : Nat) : PairRecord :=
  let th : Option (List String) :=
    if cfg.includeTables ∧ (a1.table ∨ a2.table) then some r.tableHeaders
    else none
  let td : Option (List (List String)) :=
    if cfg.includeTables ∧ (a1.table ∨ a2.table) then some r.tableData
    else none
  let p1 := cfg.datasetDirectory ++ "\\img1_" ++ toString idx ++ ".png"
  let p2 := cfg.datasetDirectory ++ "\\img2_" ++ toString idx ++ ".png"
  { img1Path := p1
    img2Path := p2
    slide1 := slideArgs cfg r a1 p1 r.fontSize1 r.titleFontSize1 th td
    slide2 := slideArgs cfg r a2 p2 r.fontSize2 r.titleFontSize2 th td
    styleLabel := label
    fontLabel := if a1.font = a2.font then 1 else 0 }

/-- The loop state: emitted pairs and the per-label counters
(`style_label_count`). -/
structure GenState where
  pairs : List PairRecord
  count0 : Nat
  count1 : Nat
deriving DecidableEq, Repr

def initState : GenState := ⟨[], 0, 0⟩

/-- One iteration of the `while` loop (lines 237-371): the identical branch
runs when the coin says same and the label-1 quota is open, the differing
branch when the coin says different and the label-0 quota is open;
otherwise the draw is discarded (`continue`). -/
def stepIter (cfg : Cfg) (st : GenState) (r : IterRand) : GenState :=
  let target := cfg.numSamples / 2
  if r.is_same = true ∧ st.count1 < target then
    { pairs :=
        st.pairs ++ [buildPair cfg st.pairs.length r (sameAttrs r) (sameAttrs r) 1]
      count0 := st.count0
      count1 := st.count1 + 1 }
  else if r.is_same = false ∧ st.count0 < target then
    { pairs :=
        st.pairs ++ [buildPair cfg st.pairs.length r (sameAttrs r) (diffAttrs2 r) 0]
      count0 := st.count0 + 1
      count1 := st.count1 }
  else st

/-- The generation loop over a finite random tape, stopping as soon as
`num_samples` pairs have been produced (`while len(image_pairs) <
num_samples`). -/
def runLoop (cfg : Cfg) : GenState → List IterRand → GenState
  | st, [] => st
  | st, r :: rs =>
    if st.pairs.length < cfg.numSamples then
      runLoop cfg (stepIter cfg st r) rs
    else st

/-- The configuration error raised when no image generator is available. -/
inductive CbdError where
  | nameError
deriving DecidableEq, Repr

/-- Embeds `create_balanced_dataset` (lines 181-373).  `genImageParam`
models the `generate_image` parameter, `genImageGlobal` the
`globals().get('generate_image')` fallback; when both are absent a
`NameError` is raised before the loop starts.  On success the returned
triple mirrors `(image_pairs, style_labels, font_labels)`. -/
def create_balanced_dataset (genImageParam genImageGlobal : Option Unit)
    (cfg : Cfg) (tape : List IterRand) :
    Except CbdError (List (String × String) × List Nat × List Nat) :=
  match (match genImageParam with
         | some f => some f
         | none => genImageGlobal) with
  | none => .error .nameError
  | some _ =>
    let st := runLoop cfg initState tape
    .ok (st.pairs.map fun p => (p.img1Path, p.img2Path),
      st.pairs.map (fun p => p.styleLabel),
      st.pairs.map (fun p => p.fontLabel))

end DatasetGen

namespace DatasetGen

/-! ### Label-balance invariant (C1) -/

/-- Loop invariant: the counters never exceed the per-class target
`num_samples // 2`, they agree with the emitted style labels, and every
emitted pair is counted by exactly one of them. -/
def StInv (cfg : Cfg) (st : GenState) : Prop :=
  st.count1 ≤ cfg.numSamples / 2 ∧
  st.count0 ≤ cfg.numSamples / 2 ∧
  (st.pairs.map (fun p => p.styleLabel)).count 1 = st.count1 ∧
  (st.pairs.map (fun p => p.styleLabel)).count 0 = st.count0 ∧
  st.pairs.length = st.count0 + st.count1

theorem buildPair_styleLabel (cfg : Cfg) (idx : Nat) (r : IterRand)
    (a1 a2 : SlideChoice) (label : Nat) :
    (buildPair cfg idx r a1 a2 label).styleLabel = label := rfl

theorem stepIter_inv (cfg : Cfg) (st : GenState) (r : IterRand)
    (h : StInv cfg st) : StInv cfg (stepIter cfg st r) := by
  obtain ⟨h1, h0, hc1, hc0, hlen⟩ := h
  simp only [stepIter]
  split
  · rename_i hcond
    obtain ⟨hsame, hlt⟩ := hcond
    refine ⟨?_, ?_, ?_, ?_, ?_⟩ <;>
      simp [List.count_append, buildPair_styleLabel, hc1, hc0, hlen] <;> omega
  · split
    · rename_i hcond
      obtain ⟨hsame, hlt⟩ := hcond
      refine ⟨?_, ?_, ?_, ?_, ?_⟩ <;>
        simp [List.count_append, buildPair_styleLabel, hc1, hc0, hlen] <;> omega
    · exact ⟨h1, h0, hc1, hc0, hlen⟩

theorem runLoop_inv (cfg : Cfg) (tape : List IterRand) :
    ∀ st : GenState, StInv cfg st → StInv cfg (runLoop cfg st tape) := by
  induction tape with
  | nil => intro st h; exact h
  | cons r rs ih =>
    intro st h
    unfold runLoop
    split
    · exact ih _ (stepIter_inv cfg st r h)
    · exact h

/-- C1 (amended): whenever the generation loop of `create_balanced_dataset`
completes — i.e. actually reaches `num_samples` emitted pairs — the sample
count is even and the emitted style labels contain exactly
`num_samples // 2` ones and `num_samples - num_samples // 2` zeros; in
particular for odd `num_samples` the loop can never complete. -/
theorem create_balanced_dataset_balanced (cfg : Cfg) (tape : List IterRand)
    (hdone : (runLoop cfg initState tape).pairs.length = cfg.numSamples) :
    cfg.numSamples % 2 = 0 ∧
    ((runLoop cfg initState tape).pairs.map (fun p => p.styleLabel)).count 1 =
      cfg.numSamples / 2 ∧
    ((runLoop cfg initState tape).pairs.map (fun p => p.styleLabel)).count 0 =
      cfg.numSamples - cfg.numSamples / 2 := by
  have hinv := runLoop_inv cfg tape initState
    ⟨by simp [initState], by simp [initState], by simp [initState],
      by simp [initState], by simp [initState]⟩
  obtain ⟨h1, h0, hc1, hc0, hlen⟩ := hinv
  rw [hdone] at hlen
  refine ⟨by omega, by omega, by omega⟩

/-- A configuration with the given sample count (used with concrete tapes). -/
def mkCfg (n : Nat) : Cfg where
  datasetDirectory := "dataset"
  numSamples := n
  includeTables := true
  borderColor := "#000000"
  imgSize := (1024, 768)
  logoSize := (120, 120)

/-- A fully concrete iteration draw (identical-pair coin). -/
def sameDraw : IterRand where
  is_same := true
  font1 := "arial.ttf"
  fontReuse := false
  fontAlt := "times.ttf"
  bgColor1 := "#FFFFFF"
  bgReuse := false
  bgColorAlt := "#FAFAFA"
  textColor1 := "#000000"
  tcReuse := false
  textColorAlt := "#1a1a1a"
  borderWidth1 := 1
  bwReuse := false
  borderWidthAlt := 2
  hasLogo1 := true
  hasLogoReuse := false
  hasLogoAlt := false
  logoChoice1 := "OIP.png"
  logoPathReuse := false
  logoChoiceAlt := "OIP (1).png"
  logoPos1 := "top-left"
  logoPos2 := "bottom-right"
  bullets1 := true
  bulletsReuse := false
  bulletsAlt := false
  table1 := true
  tableReuse := false
  tableAlt := false
  tableBorder1 := 1
  tbReuse := false
  tableBorderAlt := 2
  tableBorderColor1 := "#000000"
  tbcReuse := false
  tableBorderColorAlt := "#333333"
  texts := ["Title words", "first line", "second line"]
  lineSpacing := 1
  borderStatus := true
  addImage := some "pres2.png"
  addImage2 := none
  fontSize1 := 16
  titleFontSize1 := 32
  fontSize2 := 18
  titleFontSize2 := 36
  tableHeaders := ["Region", "Q1"]
  tableData := [["north", "x"], ["south", "y"]]

/-- The same concrete draw with the differing-pair coin. -/
def diffDraw : IterRand := { sameDraw with is_same := false }

/-- Witness for C1 at `num_samples = 2` with a two-draw tape. -/
theorem create_balanced_dataset_balanced_witness :
    (mkCfg 2).numSamples % 2 = 0 ∧
    ((runLoop (mkCfg 2) initState [sameDraw, diffDraw]).pairs.map
      (fun p => p.styleLabel)).count 1 = (mkCfg 2).numSamples / 2 ∧
    ((runLoop (mkCfg 2) initState [sameDraw, diffDraw]).pairs.map
      (fun p => p.styleLabel)).count 0 =
      (mkCfg 2).numSamples - (mkCfg 2).numSamples / 2 :=
  create_balanced_dataset_balanced (mkCfg 2) [sameDraw, diffDraw] (by decide)

/-- Counterexample to C1 as stated: for `num_samples = 1` no random tape
can ever drive the loop to completion — both per-class quotas are
`1 // 2 = 0`, so every draw is discarded and the `while` loop never
reaches one emitted pair (it runs forever). -/
theorem create_balanced_dataset_odd_counterexample :
    ¬ (∀ n : Nat, ∃ tape : List IterRand,
        (runLoop (mkCfg n) initState tape).pairs.length = (mkCfg n).numSamples) := by
  intro h
  obtain ⟨tape, hc⟩ := h 1
  have hinv := runLoop_inv (mkCfg 1) tape initState
    ⟨by simp [initState], by simp [initState], by simp [initState],
      by simp [initState], by simp [initState]⟩
  obtain ⟨h1, h0, _, _, hlen⟩ := hinv
  have : (mkCfg 1).numSamples = 1 := rfl
  have htarget : (mkCfg 1).numSamples / 2 = 0 := rfl
  omega

end DatasetGen

namespace DatasetGen

/-! ### Per-pair properties (C2, C9) -/

theorem stepIter_pairs (cfg : Cfg) (st : GenState) (r : IterRand)
    (P : PairRecord → Prop)
    (hsame : ∀ idx, P (buildPair cfg idx r (sameAttrs r) (sameAttrs r) 1))
    (hdiff : ∀ idx, P (buildPair cfg idx r (sameAttrs r) (diffAttrs2 r) 0))
    (h : ∀ pr ∈ st.pairs, P pr) :
    ∀ pr ∈ (stepIter cfg st r).pairs, P pr := by
  simp only [stepIter]
  split
  · intro pr hpr
    rcases List.mem_append.mp hpr with h' | h'
    · exact h pr h'
    · simp only [List.mem_singleton] at h'
      subst h'
      exact hsame _
  · split
    · intro pr hpr
      rcases List.mem_append.mp hpr with h' | h'
      · exact h pr h'
      · simp only [List.mem_singleton] at h'
        subst h'
        exact hdiff _
    · exact h

theorem runLoop_pairs (cfg : Cfg) (tape : List IterRand)
    (P : PairRecord → Prop)
    (hsame : ∀ (r : IterRand) idx,
      P (buildPair cfg idx r (sameAttrs r) (sameAttrs r) 1))
    (hdiff : ∀ (r : IterRand) idx,
      P (buildPair cfg idx r (sameAttrs r) (diffAttrs2 r) 0)) :
    ∀ st : GenState, (∀ pr ∈ st.pairs, P pr) →
      ∀ pr ∈ (runLoop cfg st tape).pairs, P pr := by
  induction tape with
  | nil => intro st h; exact h
  | cons r rs ih =>
    intro st h
    unfold runLoop
    split
    · exact ih _ (stepIter_pairs cfg st r P (hsame r) (hdiff r) h)
    · exact h

/-- C2: every pair emitted by `create_balanced_dataset` with style label 1
has each shared attribute dimension — font path, background color, text
color, border width, logo presence, logo path, logo position, bullet flag,
table flag, table border width and table border color — equal between its
two slides. -/
theorem style1_pairs_share_attributes (cfg : Cfg) (tape : List IterRand)
    (pr : PairRecord) (hmem : pr ∈ (runLoop cfg initState tape).pairs)
    (hlab : pr.styleLabel = 1) :
    pr.slide1.font_path = pr.slide2.font_path ∧
    pr.slide1.img_background_color = pr.slide2.img_background_color ∧
    pr.slide1.text_color = pr.slide2.text_color ∧
    pr.slide1.border_width = pr.slide2.border_width ∧
    pr.slide1.logo_path.isSome = pr.slide2.logo_path.isSome ∧
    pr.slide1.logo_path = pr.slide2.logo_path ∧
    pr.slide1.logo_position = pr.slide2.logo_position ∧
    pr.slide1.bullet = pr.slide2.bullet ∧
    pr.slide1.add_table = pr.slide2.add_table ∧
    pr.slide1.table_border = pr.slide2.table_border ∧
    pr.slide1.table_border_color = pr.slide2.table_border_color := by
  revert hlab
  refine runLoop_pairs cfg tape
    (fun q => q.styleLabel = 1 →
      q.slide1.font_path = q.slide2.font_path ∧
      q.slide1.img_background_color = q.slide2.img_background_color ∧
      q.slide1.text_color = q.slide2.text_color ∧
      q.slide1.border_width = q.slide2.border_width ∧
      q.slide1.logo_path.isSome = q.slide2.logo_path.isSome ∧
      q.slide1.logo_path = q.slide2.logo_path ∧
      q.slide1.logo_position = q.slide2.logo_position ∧
      q.slide1.bullet = q.slide2.bullet ∧
      q.slide1.add_table = q.slide2.add_table ∧
      q.slide1.table_border = q.slide2.table_border ∧
      q.slide1.table_border_color = q.slide2.table_border_color)
    ?_ ?_ initState (by simp [initState]) pr hmem
  · intro r idx _
    simp [buildPair, slideArgs]
  · intro r idx h
    simp [buildPair] at h

/-- C9: in both branches, the title, the two optional body strings, the
line spacing and the two optional inline-image choices passed to the two
`generate_image` calls of a pair are identical — they are drawn once per
pair. -/
theorem pair_shares_content (cfg : Cfg) (tape : List IterRand)
    (pr : PairRecord) (hmem : pr ∈ (runLoop cfg initState tape).pairs) :
    pr.slide1.title = pr.slide2.title ∧
    pr.slide1.text1 = pr.slide2.text1 ∧
    pr.slide1.text2 = pr.slide2.text2 ∧
    pr.slide1.line_spacing = pr.slide2.line_spacing ∧
    pr.slide1.add_image = pr.slide2.add_image ∧
    pr.slide1.add_image_2 = pr.slide2.add_image_2 :=
  runLoop_pairs cfg tape
    (fun q =>
      q.slide1.title = q.slide2.title ∧
      q.slide1.text1 = q.slide2.text1 ∧
      q.slide1.text2 = q.slide2.text2 ∧
      q.slide1.line_spacing = q.slide2.line_spacing ∧
      q.slide1.add_image = q.slide2.add_image ∧
      q.slide1.add_image_2 = q.slide2.add_image_2)
    (fun r idx => by simp [buildPair, slideArgs])
    (fun r idx => by simp [buildPair, slideArgs])
    initState (by simp [initState]) pr hmem

/-- The pair emitted by the concrete identical draw. -/
def samplePair1 : PairRecord :=
  buildPair (mkCfg 2) 0 sameDraw (sameAttrs sameDraw) (sameAttrs sameDraw) 1

/-- The pair emitted by the concrete differing draw. -/
def samplePair0 : PairRecord :=
  buildPair (mkCfg 2) 0 diffDraw (sameAttrs diffDraw) (diffAttrs2 diffDraw) 0

/-- Witness for C2: the concrete identical draw emits a style-1 pair with
all shared dimensions equal. -/
theorem style1_pairs_share_attributes_witness :
    samplePair1.slide1.font_path = samplePair1.slide2.font_path ∧
    samplePair1.slide1.img_background_color =
      samplePair1.slide2.img_background_color ∧
    samplePair1.slide1.text_color = samplePair1.slide2.text_color ∧
    samplePair1.slide1.border_width = samplePair1.slide2.border_width ∧
    samplePair1.slide1.logo_path.isSome =
      samplePair1.slide2.logo_path.isSome ∧
    samplePair1.slide1.logo_path = samplePair1.slide2.logo_path ∧
    samplePair1.slide1.logo_position = samplePair1.slide2.logo_position ∧
    samplePair1.slide1.bullet = samplePair1.slide2.bullet ∧
    samplePair1.slide1.add_table = samplePair1.slide2.add_table ∧
    samplePair1.slide1.table_border = samplePair1.slide2.table_border ∧
    samplePair1.slide1.table_border_color =
      samplePair1.slide2.table_border_color :=
  style1_pairs_share_attributes (mkCfg 2) [sameDraw] samplePair1
    (by decide) (by decide)

/-- Witness for C9: the concrete differing draw still shares the textual
content, line spacing and inline-image choices between its two slides. -/
theorem pair_shares_content_witness :
    samplePair0.slide1.title = samplePair0.slide2.title ∧
    samplePair0.slide1.text1 = samplePair0.slide2.text1 ∧
    samplePair0.slide1.text2 = samplePair0.slide2.text2 ∧
    samplePair0.slide1.line_spacing = samplePair0.slide2.line_spacing ∧
    samplePair0.slide1.add_image = samplePair0.slide2.add_image ∧
    samplePair0.slide1.add_image_2 = samplePair0.slide2.add_image_2 :=
  pair_shares_content (mkCfg 2) [diffDraw] samplePair0 (by decide)

/-- C8: when `create_balanced_dataset` is called with `generate_image =
None` and no `generate_image` binding in the ambient globals, it raises
`NameError` before generating any pair — the result is the error, with no
pairs, labels or image paths produced. -/
theorem missing_generate_image_raises (cfg : Cfg) (tape : List IterRand) :
    create_balanced_dataset none none cfg tape = .error .nameError := rfl

end DatasetGen

namespace SlideGen

/-! ### The render pipeline of `generate_image` (C6, C7) -/

/-- Python truthiness of an optional string: `None` and `""` are falsy. -/
def truthy : Option String → Option String
  | some s => if s = "" then none else some s
  | none => none

/-- External effects available to one render: whether
`ImageFont.truetype(font_path, ...)` succeeds, which files exist
(`os.path.exists`), and which images `Image.open(...).resize(...)` can
load.  The four `cw*` fields are the metrics of the loaded title, body,
table fonts and of `ImageFont.load_default()`. -/
structure RenderEnv where
  fontLoadOk : Bool
  cwTitle : Char → Nat
  cwText : Char → Nat
  cwSmall : Char → Nat
  cwDefault : Char → Nat
  fileExists : String → Bool
  imageLoadOk : String → Bool

/-- Exceptions the raw Python statements could raise; the embedding keeps
only the ones not syntactically wrapped in `try/except`:
`table_width // num_cols` with `num_cols == 0`. -/
inductive PyError where
  | zeroDiv
deriving DecidableEq, Repr

/-- Embeds `logo_overlaps_content(logo_x, logo_y, logo_w, logo_h,
content_areas)` (lines 373-386 of `slide_generator.py`). -/
def logo_overlaps_content (logoX logoY logoW logoH : Int)
    (contentAreas : List (Int × Int × Int × Int)) : Bool :=
  contentAreas.any fun area =>
    let cx := area.1
    let cy := area.2.1
    let cWidth := area.2.2.1
    let cHeight := area.2.2.2
    !(decide (logoX + logoW ≤ cx) || decide (logoX ≥ cx + cWidth) ||
      decide (logoY + logoH ≤ cy) || decide (logoY ≥ cy + cHeight))

/-- The `logo_positions` corner dictionary (lines 390-395), `none` when
`logo_position` is not one of the four corner keys. -/
def logoPosFor (imgW imgH logoW logoH : Int) (pos : String) :
    Option (Int × Int) :=
  if pos = "top-left" then some (5, 5)
  else if pos = "top-right" then some (imgW - logoW - 5, 5)
  else if pos = "bottom-left" then some (5, imgH - logoH - 5)
  else if pos = "bottom-right" then some (imgW - logoW - 5, imgH - logoH - 5)
  else none

/-- The logo-drawing decision (lines 397-409): the logo is pasted exactly
when it is configured with an existing file and a corner position, its
rectangle overlaps no recorded content area, and `Image.open` succeeds
(otherwise only a warning is printed). -/
def logoDecision (env : RenderEnv) (logoPathT : Option String)
    (posOpt : Option (Int × Int)) (logoW logoH : Int)
    (contentAreas : List (Int × Int × Int × Int)) : Bool :=
  match logoPathT, posOpt with
  | some p, some pos =>
    env.fileExists p &&
      !logo_overlaps_content pos.1 pos.2 logoW logoH contentAreas &&
      env.imageLoadOk p
  | _, _ => false

/-- Everything the layout phase of `generate_image` produces: the drawn
title lines, the truncated table cell texts, the recorded content areas
(in draw order) and the cursor position after the table block. -/
structure LayoutResult where
  titleLines : List String
  headerCells : List String
  dataCells : List (List String)
  contentAreas : List (Int × Int × Int × Int)
  yFinal : Int
deriving DecidableEq, Repr

/-- The table block of `generate_image` (lines 197-279): guarded by the
truthiness of `add_table`, `table_headers` and `table_data`; computes the
cell width by integer division (the lone statement of the layout that can
raise, when `num_cols` is zero), truncates every header and data cell, and
records the table rectangle.  Returns the truncated cells, the recorded
area and the advanced cursor. -/
def tableLayout (cwS : Char → Nat) (addTable : Bool) (imgW xm y3 : Int) :
    Option (List String) → Option (List (List String)) →
    Except PyError
      ((List String × List (List String) × List (Int × Int × Int × Int)) × Int)
  | some hs, some ds =>
    if addTable && !hs.isEmpty && !ds.isEmpty then
      let tableW : Int := min 200 (imgW - 2 * xm)
      if hs.length = 0 then .error .zeroDiv
      else
        let cellWidth : Int := Int.fdiv tableW (hs.length : Int)
        let cellHeight : Int := 18
        let tableHeight : Int := ((ds.length : Int) + 1) * cellHeight
        let maxTextW : Nat := (max 5 (cellWidth - 4)).toNat
        .ok ((hs.map fun h => truncate_text cwS h maxTextW,
          ds.map fun row => row.map fun c => truncate_text cwS c maxTextW,
          [(xm, y3, tableW, tableHeight)]), y3 + tableHeight + 4)
    else .ok (([], [], []), y3)
  | _, _ => .ok (([], [], []), y3)

/-- The layout phase of `generate_image` (lines 93-370): vertical flow of
title, body lines, table and inline images, recording content areas as
they are drawn. -/
def renderLayout (a : GenArgs) (env : RenderEnv) :
    Except PyError LayoutResult :=
  let cwT := if env.fontLoadOk then env.cwTitle else env.cwDefault
  let cwS := if env.fontLoadOk then env.cwSmall else env.cwDefault
  let imgW := a.img_size.1
  let imgH := a.img_size.2
  let logoW := a.logo_size.1
  let logoH := a.logo_size.2
  let bw : Int := (a.border_width : Int)
  let baseY : Int := 15 + bw * 2
  let xm : Int := 10 + bw * 2
  let logoOk : Bool :=
    match truthy a.logo_path with
    | some p => env.fileExists p
    | none => false
  let topLogo : Bool :=
    logoOk && (a.logo_position == "top-left" || a.logo_position == "top-right")
  let y0 : Int := if topLogo then max baseY (5 + logoH + 3) else baseY
  let titleState : List String × List (Int × Int × Int × Int) × Int :=
    match truthy a.title with
    | none => ([], [], y0)
    | some t =>
      let maxTitleW : Int :=
        if logoOk && a.logo_position == "top-right" then
          imgW - xm - logoW - 5
        else imgW - 2 * xm
      let tls := titleLinesOf cwT maxTitleW.toNat t
      let lineAdv : Int := (a.title_font_size : Int) + (a.line_spacing : Int) * 2
      let titleEndY : Int := y0 + (tls.length : Int) * lineAdv
      let lineY : Int := titleEndY + (a.line_spacing : Int) * 2 + 2
      (tls, [(xm, y0, imgW - 2 * xm, titleEndY - y0)], lineY + 4)
  let areas1 := titleState.2.1
  let y1 := titleState.2.2
  let t1 : List (Int × Int × Int × Int) × Int :=
    match truthy a.text1 with
    | none => ([], y1)
    | some _ =>
      ([(xm, y1, imgW - 2 * xm, (a.font_size : Int))],
        y1 + (a.font_size : Int) + (a.line_spacing : Int) * 3)
  let areas2 := areas1 ++ t1.1
  let t2 : List (Int × Int × Int × Int) × Int :=
    match truthy a.text2 with
    | none => ([], t1.2)
    | some _ =>
      ([(xm, t1.2, imgW - 2 * xm, (a.font_size : Int))],
        t1.2 + (a.font_size : Int) + (a.line_spacing : Int) * 3)
  let areas3 := areas2 ++ t2.1
  let y3 : Int := t2.2 + 4
  Except.map
    (fun tr =>
      let hcells := tr.1.1
      let dcells := tr.1.2.1
      let tareas := tr.1.2.2
      let y4 := tr.2
      let areas4 := areas3 ++ tareas
      let bottomLogo : Bool :=
        logoOk &&
          (a.logo_position == "bottom-left" || a.logo_position == "bottom-right")
      let availH : Int :=
        if bottomLogo then imgH - y4 - logoH - 8 else imgH - y4 - 5
      let imgAreas : List (Int × Int × Int × Int) :=
        if availH ≥ 30 then
          let availW : Int := imgW - 2 * xm
          match truthy a.add_image, truthy a.add_image_2 with
          | some _, some _ =>
            let singleW : Int := Int.fdiv (availW - 4) 2
            let singleH : Int := min availH singleW
            if singleW ≥ 30 ∧ singleH ≥ 30 then
              [(xm, y4, singleW, singleH),
                (xm + singleW + 4, y4, singleW, singleH)]
            else []
          | some _, none =>
            let s : Int := min availW availH
            if s ≥ 30 then [(xm, y4, s, s)] else []
          | none, some _ =>
            let s : Int := min availW availH
            if s ≥ 30 then [(xm, y4, s, s)] else []
          | none, none => []
        else []
      { titleLines := titleState.1
        headerCells := hcells
        dataCells := dcells
        contentAreas := areas4 ++ imgAreas
        yFinal := y4 })
    (tableLayout cwS a.add_table imgW xm y3 a.table_headers a.table_data)

/-- The observable outcome of one `generate_image` call. -/
structure RenderOutput where
  usedDefaultFont : Bool
  titleLines : List String
  headerCells : List String
  dataCells : List (List String)
  contentAreas : List (Int × Int × Int × Int)
  logoPasted : Bool
  savedPath : String
deriving DecidableEq, Repr

/-- The final phase of `generate_image`: the logo decision against the
recorded content areas, then the save of the canvas to `output_path`
(`os.makedirs` + `img.save`). -/
def assembleOutput (a : GenArgs) (env : RenderEnv) (L : LayoutResult) :
    RenderOutput where
  usedDefaultFont := !env.fontLoadOk
  titleLines := L.titleLines
  headerCells := L.headerCells
  dataCells := L.dataCells
  contentAreas := L.contentAreas
  logoPasted :=
    logoDecision env (truthy a.logo_path)
      (logoPosFor a.img_size.1 a.img_size.2 a.logo_size.1
        a.logo_size.2 a.logo_position)
      a.logo_size.1 a.logo_size.2 L.contentAreas
  savedPath := a.output_path

/-- Embeds `generate_image` (lines 61-413 of `slide_generator.py`): layout,
then logo decision and canvas save. -/
def generateImage (a : GenArgs) (env : RenderEnv) :
    Except PyError RenderOutput :=
  match renderLayout a env with
  | .error e => .error e
  | .ok L => .ok (assembleOutput a env L)

/-! ### C6, C7 -/

theorem tableLayout_isOk (cwS : Char → Nat) (addTable : Bool)
    (imgW xm y3 : Int) :
    ∀ th td, ∃ v, tableLayout cwS addTable imgW xm y3 th td = .ok v
  | none, none => ⟨_, rfl⟩
  | none, some _ => ⟨_, rfl⟩
  | some _, none => ⟨_, rfl⟩
  | some hs, some ds => by
    rw [tableLayout]
    by_cases hg : (addTable && !hs.isEmpty && !ds.isEmpty) = true
    · rw [if_pos hg]
      have hne : ¬ hs.length = 0 := by
        simp only [Bool.and_eq_true] at hg
        have := hg.1.2
        simp only [Bool.not_eq_true'] at this
        intro h0
        rw [List.length_eq_zero] at h0
        subst h0
        simp at this
      rw [if_neg hne]
      exact ⟨_, rfl⟩
    · rw [if_neg hg]
      exact ⟨_, rfl⟩

theorem except_map_isOk {α β : Type} {f : α → β}
    {x : Except PyError α} (h : ∃ v, x = .ok v) :
    ∃ w, Except.map f x = .ok w := by
  obtain ⟨v, rfl⟩ := h
  exact ⟨f v, rfl⟩

theorem renderLayout_isOk (a : GenArgs) (env : RenderEnv) :
    ∃ L, renderLayout a env = .ok L := by
  simp only [renderLayout]
  exact except_map_isOk (tableLayout_isOk _ _ _ _ _ _ _)

/-- C7: `generate_image` never raises â for every argument record and every
outcome of the external font/image loads and file-existence checks, the
render completes and the canvas is saved to the requested output path;
a failed font load merely substitutes the default font. -/
theorem generate_image_never_raises (a : GenArgs) (env : RenderEnv) :
    ∃ out, generateImage a env = .ok out ∧
      out.savedPath = a.output_path ∧
      out.usedDefaultFont = !env.fontLoadOk := by
  obtain ⟨L, hL⟩ := renderLayout_isOk a env
  refine ⟨assembleOutput a env L, ?_, rfl, rfl⟩
  simp [generateImage, hL]

theorem tableLayout_not_addTable (cwS : Char → Nat) (imgW xm y3 : Int) :
    ∀ th td, tableLayout cwS false imgW xm y3 th td = .ok (([], [], []), y3)
  | none, none => rfl
  | none, some _ => rfl
  | some _, none => rfl
  | some hs, some ds => by
    rw [tableLayout]
    simp

theorem renderLayout_no_content (a : GenArgs) (env : RenderEnv)
    (L : LayoutResult) (hL : renderLayout a env = .ok L)
    (htitle : a.title = none) (ht1 : a.text1 = none) (ht2 : a.text2 = none)
    (htab : a.add_table = false) (hi1 : a.add_image = none)
    (hi2 : a.add_image_2 = none) :
    L.contentAreas = [] := by
  rw [renderLayout] at hL
  rw [htab, tableLayout_not_addTable] at hL
  simp only [htitle, ht1, ht2, hi1, hi2, truthy, Except.map] at hL
  cases hL
  simp

/-- C6: with a configured logo (truthy existing path, valid corner
position, loadable image), the logo is pasted if and only if its corner
rectangle overlaps no recorded content region; in particular, when no
title, body text, table or inline image was drawn the logo is always
pasted at its designated corner offset. -/
theorem logo_pasted_iff_no_overlap (a : GenArgs) (env : RenderEnv)
    (p : String) (lx ly : Int)
    (hpath : truthy a.logo_path = some p)
    (hpos : logoPosFor a.img_size.1 a.img_size.2 a.logo_size.1 a.logo_size.2
      a.logo_position = some (lx, ly))
    (hexists : env.fileExists p = true)
    (hload : env.imageLoadOk p = true) :
    ∃ out, generateImage a env = .ok out ∧
      (out.logoPasted = true ↔
        logo_overlaps_content lx ly a.logo_size.1 a.logo_size.2
          out.contentAreas = false) ∧
      ((a.title = none ∧ a.text1 = none ∧ a.text2 = none ∧
          a.add_table = false ∧ a.add_image = none ∧ a.add_image_2 = none) →
        out.logoPasted = true) := by
  obtain ⟨L, hL⟩ := renderLayout_isOk a env
  refine ⟨assembleOutput a env L, by simp [generateImage, hL], ?_, ?_⟩
  · simp only [assembleOutput, hpath, hpos, logoDecision, hexists, hload,
      Bool.true_and, Bool.and_true]
    cases hov : logo_overlaps_content lx ly a.logo_size.1 a.logo_size.2
      L.contentAreas <;> simp
  · rintro ⟨htitle, ht1, ht2, htab, hi1, hi2⟩
    have hempty :=
      renderLayout_no_content a env L hL htitle ht1 ht2 htab hi1 hi2
    simp only [assembleOutput, hpath, hpos, logoDecision, hexists, hload,
      hempty, logo_overlaps_content, List.any_nil, Bool.not_false,
      Bool.true_and, Bool.and_true]

end SlideGen
namespace SlideGen

/-- A concrete argument record: a bottom-right logo on an otherwise empty
224-by-224 slide. -/
def logoOnlyArgs : GenArgs where
  font_path := "arial.ttf"
  img_background_color := "#FFFFFF"
  output_path := "out\\img1_0.png"
  text_color := "#000000"
  img_size := (224, 224)
  font_size := 12
  title_font_size := 20
  line_spacing := 1
  logo_size := (20, 20)
  border := true
  border_color := "#000000"
  border_width := 2
  logo_path := some "logo.png"
  logo_position := "bottom-right"
  add_image := none
  add_image_2 := none
  title := none
  text1 := none
  text2 := none
  bullet := false
  add_table := false
  table_headers := none
  table_data := none
  table_border := 1
  table_border_color := "#000000"

/-- A concrete environment where every load succeeds. -/
def allOkEnv : RenderEnv where
  fontLoadOk := true
  cwTitle := cwOne
  cwText := cwOne
  cwSmall := cwOne
  cwDefault := cwOne
  fileExists := fun _ => true
  imageLoadOk := fun _ => true

/-- Witness for C6 at the concrete logo-only render. -/
theorem logo_pasted_iff_no_overlap_witness :
    ∃ out, generateImage logoOnlyArgs allOkEnv = .ok out ∧
      (out.logoPasted = true ↔
        logo_overlaps_content 199 199 logoOnlyArgs.logo_size.1
          logoOnlyArgs.logo_size.2 out.contentAreas = false) ∧
      ((logoOnlyArgs.title = none ∧ logoOnlyArgs.text1 = none ∧
          logoOnlyArgs.text2 = none ∧ logoOnlyArgs.add_table = false ∧
          logoOnlyArgs.add_image = none ∧ logoOnlyArgs.add_image_2 = none) →
        out.logoPasted = true) :=
  logo_pasted_iff_no_overlap logoOnlyArgs allOkEnv "logo.png" 199 199
    (by decide) (by decide) rfl rfl

/-! ### `create_complex_images` (C10) -/

/-- One entry of the `full_data` list built at line 652 of
`slide_generator.py`: `{'img_path': 'img_1_path', 'text':
presentation_text, 'in-sync': 1}`. -/
structure ComplexItem where
  img_path : String
  text : String
  in_sync : Nat
deriving DecidableEq, Repr

/-- The `while i < num_samples` loop of `create_complex_images`
(lines 509-654): the per-item render and LLM calls are abstracted into
`ptext` (the presentation text resolved for item `i`), while the list
bookkeeping is embedded verbatim — each iteration appends
`img_1_path = f"{dataset_directory}\\img1_{i}.png"` to `images`, the text
to `presentation_texts`, and the metadata record to `full_data`.  Note the
metadata record stores the string literal `'img_1_path'`, exactly as the
source does. -/
def complexLoop (datasetDirectory : String) (ptext : Nat → String) :
    Nat → Nat → List String × List String × List ComplexItem
  | _, 0 => ([], [], [])
  | i, Nat.succ k =>
    let img1Path := datasetDirectory ++ "\\img1_" ++ toString i ++ ".png"
    let pt := ptext i
    let rest := complexLoop datasetDirectory ptext (i + 1) k
    (img1Path :: rest.1, pt :: rest.2.1,
      { img_path := "img_1_path", text := pt, in_sync := 1 } :: rest.2.2)

/-- Embeds `create_complex_images(dataset_directory, num_samples, ...)`,
returning `(images, presentation_texts, full_data)`. -/
def create_complex_images (datasetDirectory : String) (numSamples : Nat)
    (ptext : Nat → String) :
    List String × List String × List ComplexItem :=
  complexLoop datasetDirectory ptext 0 numSamples

/-- C10 fails on the code: for the first generated item the `images` list
holds the rendered file's path, but the `full_data` metadata record holds
the string literal `"img_1_path"` — the source quotes the variable name at
line 652 — so the metadata does not contain the image path. -/
theorem create_complex_images_img_path_literal :
    (create_complex_images "data" 1 (fun _ => "caption")).1 =
      ["data\\img1_0.png"] ∧
    ((create_complex_images "data" 1 (fun _ => "caption")).2.2.map
      (fun item => item.img_path)) = ["img_1_path"] ∧
    "img_1_path" ≠ "data\\img1_0.png" := by
  decide

end SlideGen
